import Mathlib

/-!
Verification of the suremark command-line agent's post-processing and
dedup-orchestration pipeline.  The TypeScript sources (post-processor.ts,
database.ts, the CLI command actions, x-api.ts and config.ts) are shallowly
embedded here: strings are lists of characters, the Mongo collection is a
list of documents with a unique-url insert, and the external collaborators
(network fetch, posting client, WHATWG URL parsing) are explicit inputs.
-/

/-- Strings of the embedded program are lists of characters
(one character per JavaScript code unit, astral planes aside). -/
abbrev Str := List Char

/-- The dollar character, significant in JavaScript replacement strings. -/
def dollarCh : Char := Char.ofNat 36

/-- The opening-brace character. -/
def lbraceCh : Char := Char.ofNat 123

/-- The backquote character. -/
def backqCh : Char := Char.ofNat 96

/-- The apostrophe character. -/
def aposCh : Char := Char.ofNat 39

/-- The hash character. -/
def hashCh : Char := Char.ofNat 35

/-- Index of the first position of `s` at which `pat` matches, as in the
search step of JavaScript's `String.prototype.replace` with a string
pattern (the empty pattern matches at position 0). -/
def findSub (pat : Str) : Str → Option Nat
  | [] => if pat.isEmpty then some 0 else none
  | c :: rest =>
      if pat.isPrefixOf (c :: rest) then some 0
      else (findSub pat rest).map (· + 1)

/-- JavaScript `GetSubstitution` for a string pattern (no capture groups):
`$$` gives a dollar, `$&` the matched text, a dollar-backquote the text
before the match, a dollar-apostrophe the text after it; anything else is
copied literally. -/
def getSubstitution (matched before after : Str) : Str → Str
  | [] => []
  | c :: rest =>
      if c = dollarCh then
        match rest with
        | [] => [c]
        | d :: rest2 =>
            if d = dollarCh then dollarCh :: getSubstitution matched before after rest2
            else if d = '&' then matched ++ getSubstitution matched before after rest2
            else if d = backqCh then before ++ getSubstitution matched before after rest2
            else if d = aposCh then after ++ getSubstitution matched before after rest2
            else c :: d :: getSubstitution matched before after rest2
      else c :: getSubstitution matched before after rest

/-- JavaScript `String.prototype.replace` with a string pattern: replace
the first occurrence of `pat` in `s` by the substitution of `rep`. -/
def replaceFirst (s pat rep : Str) : Str :=
  match findSub pat s with
  | none => s
  | some i =>
      s.take i ++ getSubstitution pat (s.take i) (s.drop (i + pat.length)) rep
        ++ s.drop (i + pat.length)

/-- JavaScript `String.prototype.includes`: does `pat` occur contiguously
in `s`? -/
def occursIn (pat : Str) : Str → Bool
  | [] => pat.isEmpty
  | c :: rest => pat.isPrefixOf (c :: rest) || occursIn pat rest

/-- JavaScript `s.split(sep)[0]`: the part of `s` before the first
occurrence of `sep` (all of `s` when `sep` does not occur). -/
def splitFirst (sep s : Str) : Str :=
  match findSub sep s with
  | none => s
  | some i => s.take i

/-- JavaScript truthiness of a `string | undefined` value: `undefined`
and the empty string are falsy. -/
def truthy : Option Str → Bool
  | some s => !s.isEmpty
  | none => false

/-- JavaScript `a || b` on `string | undefined` values. -/
def jsOr (a b : Option Str) : Option Str := if truthy a then a else b

/-- `x || undefined`: keep a value only when it is truthy (used by the
command actions to omit empty extraction fields). -/
def truthyVal (a : Option Str) : Option Str := if truthy a then a else none

/-- The attribution-handle placeholder of the message templates
(config.ts). -/
def handlePlaceholder : Str := "@{suremark_username}".data

/-- The dashboard-link placeholder of the message templates (config.ts). -/
def dashboardPlaceholder : Str := "{dashboard_url}".data

/-- `MESSAGE_TEMPLATES.DEFAULT` from config.ts. -/
def templateDefault : Str :=
  "This post is verified by @{suremark_username} using SureMark Digital. \nCheck the SureMark dashboard for more recent posts: {dashboard_url}".data

/-- `MESSAGE_TEMPLATES.PLATFORM_SPECIFIC.twitter` from config.ts. -/
def templateTwitter : Str :=
  "This post is verified by @{suremark_username} using SureMark Digital. \nCheck the SureMark dashboard for more recent posts: {dashboard_url}".data

/-- `MESSAGE_TEMPLATES.PLATFORM_SPECIFIC.instagram` from config.ts. -/
def templateInstagram : Str :=
  "📸 This Instagram post is verified by @{suremark_username} using SureMark Digital.\nCheck more verified content: {dashboard_url}".data

/-- `MESSAGE_TEMPLATES.PLATFORM_SPECIFIC.youtube` from config.ts. -/
def templateYoutube : Str :=
  "🎥 This YouTube video is verified by @{suremark_username} using SureMark Digital.\nCheck more verified content: {dashboard_url}".data

/-- `MESSAGE_TEMPLATES.PLATFORM_SPECIFIC.website` from config.ts. -/
def templateWebsite : Str :=
  "🌐 This content is verified by @{suremark_username} using SureMark Digital.\nCheck more verified content: {dashboard_url}".data

/-- `MESSAGE_TEMPLATES.PLATFORM_SPECIFIC.article` from config.ts. -/
def templateArticle : Str :=
  "📰 This article is verified by @{suremark_username} using SureMark Digital.\nCheck more verified content: {dashboard_url}".data

/-- `MESSAGE_TEMPLATES.PLATFORM_SPECIFIC` from config.ts, in source
order. -/
def platformTemplates : List (Str × Str) :=
  [("twitter".data, templateTwitter),
   ("instagram".data, templateInstagram),
   ("youtube".data, templateYoutube),
   ("website".data, templateWebsite),
   ("article".data, templateArticle)]

/-- Template selection of `generateVerificationMessage`
(post-processor.ts): the platform-specific template when the platform has
an entry, otherwise the default template. -/
def templateFor (platform : Str) : Str :=
  match platformTemplates.find? (fun e => decide (e.1 = platform)) with
  | some e => e.2
  | none => templateDefault

/-- `PostProcessor.generateVerificationMessage` (post-processor.ts): pick
the custom message when truthy, else the template for the platform, and
substitute the first occurrence of each of the two placeholders. -/
def generateVerificationMessage (platform suremarkUsername dashboardUrl : Str)
    (customMessage : Option Str) : Str :=
  match truthyVal customMessage with
  | some m =>
      replaceFirst (replaceFirst m handlePlaceholder ('@' :: suremarkUsername))
        dashboardPlaceholder dashboardUrl
  | none =>
      replaceFirst
        (replaceFirst (templateFor platform) handlePlaceholder ('@' :: suremarkUsername))
        dashboardPlaceholder dashboardUrl

/-- A list is a `isPrefixOf`-prefix of itself followed by anything. -/
theorem isPrefixOf_self_append (p r : Str) : p.isPrefixOf (p ++ r) = true := by
  induction p with
  | nil => simp [List.isPrefixOf]
  | cons a p ih => simp [List.isPrefixOf, ih]

/-- Characters of a boolean prefix are characters of the larger list. -/
theorem mem_of_isPrefixOf : ∀ (p s : Str), p.isPrefixOf s = true → ∀ c ∈ p, c ∈ s := by
  intro p
  induction p with
  | nil => intro s _ c hc; exact absurd hc (List.not_mem_nil c)
  | cons a p ih =>
      intro s h c hc
      cases s with
      | nil => simp [List.isPrefixOf] at h
      | cons b s =>
          simp only [List.isPrefixOf, Bool.and_eq_true, beq_iff_eq] at h
          rcases List.mem_cons.mp hc with rfl | hc
          · rw [h.1]; exact List.mem_cons_self _ _
          · exact List.mem_cons_of_mem _ (ih s h.2 c hc)

/-- Characters of an occurring pattern are characters of the searched
list. -/
theorem occursIn_mem : ∀ (p s : Str), occursIn p s = true → ∀ c ∈ p, c ∈ s := by
  intro p s
  induction s with
  | nil =>
      intro h c hc
      simp only [occursIn, List.isEmpty_iff] at h
      subst h; exact absurd hc (List.not_mem_nil c)
  | cons b s ih =>
      intro h c hc
      rcases Bool.or_eq_true _ _ |>.mp h with h' | h'
      · exact mem_of_isPrefixOf p (b :: s) h' c hc
      · exact List.mem_cons_of_mem _ (ih h' c hc)

/-- A dollar-free replacement string is substituted verbatim. -/
theorem getSubstitution_no_dollar (m b a : Str) :
    ∀ r : Str, dollarCh ∉ r → getSubstitution m b a r = r := by
  intro r
  induction r with
  | nil => intro _; rfl
  | cons c rest ih =>
      intro h
      have hc : ¬(c = dollarCh) := by
        intro hce; exact h (hce ▸ List.mem_cons_self _ _)
      rw [getSubstitution.eq_def]
      simp only [if_neg hc]
      rw [ih (fun hm => h (List.mem_cons_of_mem _ hm))]

/-- The match search skips a character different from the pattern head. -/
theorem findSub_cons_ne (d : Char) (t s : Str) (c : Char) (h : ¬(c = d)) :
    findSub (d :: t) (c :: s) = (findSub (d :: t) s).map (· + 1) := by
  have hpre : (d :: t).isPrefixOf (c :: s) = false := by
    simp [List.isPrefixOf]
    intro hdc
    exact absurd hdc.symm h
  simp [findSub, hpre]

/-- The match search skips a whole block free of the pattern's head
character. -/
theorem findSub_append_free (d : Char) (t : Str) :
    ∀ (u v : Str), (∀ c ∈ u, ¬(c = d)) →
      findSub (d :: t) (u ++ v) = (findSub (d :: t) v).map (· + u.length) := by
  intro u
  induction u with
  | nil =>
      intro v _
      cases h : findSub (d :: t) v <;> simp [h]
  | cons c u ih =>
      intro v hu
      have h1 := findSub_cons_ne d t (u ++ v) c (hu c (List.mem_cons_self _ _))
      rw [List.cons_append, h1, ih v (fun x hx => hu x (List.mem_cons_of_mem _ hx))]
      cases h : findSub (d :: t) v <;> simp [h] <;> omega

/-- Taking the length of the left part of an append gives it back. -/
theorem take_len_append (u v : Str) : (u ++ v).take u.length = u := by
  induction u with
  | nil => rfl
  | cons c u ih => simp [ih]

/-- Dropping the length of the left part of an append leaves the right
part. -/
theorem drop_len_append (u v : Str) : (u ++ v).drop u.length = v := by
  induction u with
  | nil => rfl
  | cons c u ih => simp [ih]

/-- When the first match is exactly at the end of `U`, `replaceFirst`
rewrites the decomposition in place. -/
theorem replaceFirst_at (U V pat rep : Str)
    (hfind : findSub pat (U ++ pat ++ V) = some U.length) :
    replaceFirst (U ++ pat ++ V) pat rep
      = U ++ getSubstitution pat U V rep ++ V := by
  have h1 : (U ++ pat ++ V).take U.length = U := by
    rw [List.append_assoc]; exact take_len_append U (pat ++ V)
  have h2 : (U ++ pat ++ V).drop (U.length + pat.length) = V := by
    have h := drop_len_append (U ++ pat) V
    rwa [List.length_append] at h
  simp only [replaceFirst, hfind, h1, h2]

/-- The first match of a head-character-distinguished pattern in
`U ++ pat ++ V` is exactly after `U` when `U` avoids the head
character. -/
theorem findSub_boundary (d : Char) (t U V : Str) (hu : ∀ c ∈ U, ¬(c = d)) :
    findSub (d :: t) (U ++ (d :: t) ++ V) = some U.length := by
  have hpre : (d :: t).isPrefixOf (d :: (t ++ V)) = true := by
    have h := isPrefixOf_self_append (d :: t) V
    simpa using h
  have h0 : findSub (d :: t) ((d :: t) ++ V) = some 0 := by
    simp [findSub, hpre]
  rw [List.append_assoc, findSub_append_free d t U ((d :: t) ++ V) hu, h0]
  simp

/-- The tail of the dashboard placeholder after its opening brace. -/
def dashTail : Str := "dashboard_url\x7d".data

/-- Both placeholder substitutions on a template of the shape
`X ++ handle-placeholder ++ B ++ dashboard-placeholder`, with
brace-free `X`, `B` and brace- and dollar-free replacements, yield a
message free of both placeholders. -/
theorem subst_clean (T X B R1 R2 : Str)
    (hT : T = X ++ handlePlaceholder ++ B ++ dashboardPlaceholder)
    (hfind : findSub handlePlaceholder T = some X.length)
    (hX : ∀ c ∈ X, ¬(c = lbraceCh)) (hB : ∀ c ∈ B, ¬(c = lbraceCh))
    (h1d : dollarCh ∉ R1) (h1b : lbraceCh ∉ R1)
    (h2d : dollarCh ∉ R2) (h2b : lbraceCh ∉ R2) :
    occursIn handlePlaceholder
        (replaceFirst (replaceFirst T handlePlaceholder R1) dashboardPlaceholder R2) = false ∧
    occursIn dashboardPlaceholder
        (replaceFirst (replaceFirst T handlePlaceholder R1) dashboardPlaceholder R2) = false := by
  have hdp : dashboardPlaceholder = lbraceCh :: dashTail := by decide
  -- first substitution
  have hT' : T = X ++ handlePlaceholder ++ (B ++ dashboardPlaceholder) := by
    rw [hT, List.append_assoc (X ++ handlePlaceholder)]
  have hstep1 : replaceFirst T handlePlaceholder R1
      = X ++ R1 ++ (B ++ dashboardPlaceholder) := by
    rw [hT']
    rw [replaceFirst_at X (B ++ dashboardPlaceholder) handlePlaceholder R1 (hT' ▸ hfind)]
    rw [getSubstitution_no_dollar _ _ _ R1 h1d]
  -- second substitution
  have hU : ∀ c ∈ X ++ R1 ++ B, ¬(c = lbraceCh) := by
    intro c hc
    rcases List.mem_append.mp hc with hc' | hc'
    · rcases List.mem_append.mp hc' with hc'' | hc''
      · exact hX c hc''
      · intro he; exact h1b (he ▸ hc'')
    · exact hB c hc'
  have hfind2 : findSub dashboardPlaceholder
      ((X ++ R1 ++ B) ++ dashboardPlaceholder ++ []) = some (X ++ R1 ++ B).length := by
    rw [hdp]; exact findSub_boundary lbraceCh dashTail (X ++ R1 ++ B) [] hU
  have hshape : X ++ R1 ++ (B ++ dashboardPlaceholder)
      = (X ++ R1 ++ B) ++ dashboardPlaceholder ++ [] := by
    simp [List.append_assoc]
  have hstep2 : replaceFirst (replaceFirst T handlePlaceholder R1) dashboardPlaceholder R2
      = (X ++ R1 ++ B) ++ R2 ++ [] := by
    rw [hstep1, hshape,
      replaceFirst_at (X ++ R1 ++ B) [] dashboardPlaceholder R2 hfind2,
      getSubstitution_no_dollar _ _ _ R2 h2d]
  have hbrace : lbraceCh ∉ (X ++ R1 ++ B) ++ R2 ++ [] := by
    intro hmem
    rcases List.mem_append.mp hmem with h' | h'
    · rcases List.mem_append.mp h' with h'' | h''
      · exact hU lbraceCh h'' rfl
      · exact h2b h''
    · exact absurd h' (List.not_mem_nil _)
  constructor
  · rw [hstep2]
    cases hocc : occursIn handlePlaceholder ((X ++ R1 ++ B) ++ R2 ++ []) with
    | false => rfl
    | true =>
        exact absurd (occursIn_mem _ _ hocc lbraceCh (by decide)) hbrace
  · rw [hstep2]
    cases hocc : occursIn dashboardPlaceholder ((X ++ R1 ++ B) ++ R2 ++ []) with
    | false => rfl
    | true =>
        exact absurd (occursIn_mem _ _ hocc lbraceCh (by decide)) hbrace

set_option maxRecDepth 200000

/-- Text of the default/twitter template before the handle placeholder. -/
def templateDefaultX : Str := "This post is verified by ".data

/-- Text of the default/twitter template between the two placeholders. -/
def templateDefaultB : Str :=
  " using SureMark Digital. \nCheck the SureMark dashboard for more recent posts: ".data

/-- Text of the instagram template before the handle placeholder. -/
def templateInstagramX : Str := "📸 This Instagram post is verified by ".data

/-- Text of the youtube template before the handle placeholder. -/
def templateYoutubeX : Str := "🎥 This YouTube video is verified by ".data

/-- Text of the website template before the handle placeholder. -/
def templateWebsiteX : Str := "🌐 This content is verified by ".data

/-- Text of the article template before the handle placeholder. -/
def templateArticleX : Str := "📰 This article is verified by ".data

/-- Text of the platform-specific emoji templates between the two
placeholders. -/
def templateTailB : Str :=
  " using SureMark Digital.\nCheck more verified content: ".data

/-- The template chosen for any platform is one of the six literal
templates of config.ts. -/
theorem templateFor_cases (platform : Str) :
    templateFor platform = templateDefault ∨ templateFor platform = templateTwitter ∨
    templateFor platform = templateInstagram ∨ templateFor platform = templateYoutube ∨
    templateFor platform = templateWebsite ∨ templateFor platform = templateArticle := by
  rcases hfind : platformTemplates.find? (fun e => decide (e.1 = platform)) with _ | e
  · left
    simp [templateFor, hfind]
  · have ht : templateFor platform = e.2 := by simp [templateFor, hfind]
    have hmem := List.mem_of_find?_eq_some hfind
    simp only [platformTemplates, List.mem_cons, List.not_mem_nil, or_false] at hmem
    rcases hmem with rfl | rfl | rfl | rfl | rfl
    · exact Or.inr (Or.inl ht)
    · exact Or.inr (Or.inr (Or.inl ht))
    · exact Or.inr (Or.inr (Or.inr (Or.inl ht)))
    · exact Or.inr (Or.inr (Or.inr (Or.inr (Or.inl ht))))
    · exact Or.inr (Or.inr (Or.inr (Or.inr (Or.inr ht))))

/-- `subst_clean` specialised to the replacement `"@" + handle` produced
by `generateVerificationMessage`. -/
theorem subst_clean_template (T X B handle link : Str)
    (hT : T = X ++ handlePlaceholder ++ B ++ dashboardPlaceholder)
    (hfind : findSub handlePlaceholder T = some X.length)
    (hX : ∀ c ∈ X, ¬(c = lbraceCh)) (hB : ∀ c ∈ B, ¬(c = lbraceCh))
    (hhd : dollarCh ∉ handle) (hhb : lbraceCh ∉ handle)
    (hld : dollarCh ∉ link) (hlb : lbraceCh ∉ link) :
    occursIn handlePlaceholder
        (replaceFirst (replaceFirst T handlePlaceholder ('@' :: handle)) dashboardPlaceholder link) = false ∧
    occursIn dashboardPlaceholder
        (replaceFirst (replaceFirst T handlePlaceholder ('@' :: handle)) dashboardPlaceholder link) = false := by
  refine subst_clean T X B ('@' :: handle) link hT hfind hX hB ?_ ?_ hld hlb
  · intro hm
    rcases List.mem_cons.mp hm with h | h
    · exact absurd h (by decide)
    · exact hhd h
  · intro hm
    rcases List.mem_cons.mp hm with h | h
    · exact absurd h (by decide)
    · exact hhb h

/-- C6 (counterexample): the claim quantifies over every attribution
handle and dashboard link, but a dashboard link that itself contains the
handle placeholder survives into the output, which therefore contains the
literal handle placeholder. -/
theorem claim6_counterexample :
    occursIn handlePlaceholder
      (generateVerificationMessage "website".data "alice".data handlePlaceholder none)
      = true := by
  decide

/-- C6 (amended): compose with no override selects the platform-specific
template when one exists and the default template otherwise, and for
handles and links free of braces and of dollar signs the two placeholder
substitutions leave no literal dashboard or handle placeholder in the
output. -/
theorem claim6_template_substitution (platform handle link : Str)
    (hhd : dollarCh ∉ handle) (hhb : lbraceCh ∉ handle)
    (hld : dollarCh ∉ link) (hlb : lbraceCh ∉ link) :
    (∀ e ∈ platformTemplates, e.1 = platform → templateFor platform = e.2) ∧
    (platformTemplates.find? (fun e => decide (e.1 = platform)) = none →
        templateFor platform = templateDefault) ∧
    occursIn handlePlaceholder
        (generateVerificationMessage platform handle link none) = false ∧
    occursIn dashboardPlaceholder
        (generateVerificationMessage platform handle link none) = false := by
  have hgen : generateVerificationMessage platform handle link none
      = replaceFirst (replaceFirst (templateFor platform) handlePlaceholder ('@' :: handle))
          dashboardPlaceholder link := rfl
  have hpair : occursIn handlePlaceholder
        (generateVerificationMessage platform handle link none) = false ∧
      occursIn dashboardPlaceholder
        (generateVerificationMessage platform handle link none) = false := by
    rw [hgen]
    rcases templateFor_cases platform with h | h | h | h | h | h <;> rw [h]
    · exact subst_clean_template templateDefault templateDefaultX templateDefaultB handle link
        (by decide) (by decide) (by decide) (by decide) hhd hhb hld hlb
    · exact subst_clean_template templateTwitter templateDefaultX templateDefaultB handle link
        (by decide) (by decide) (by decide) (by decide) hhd hhb hld hlb
    · exact subst_clean_template templateInstagram templateInstagramX templateTailB handle link
        (by decide) (by decide) (by decide) (by decide) hhd hhb hld hlb
    · exact subst_clean_template templateYoutube templateYoutubeX templateTailB handle link
        (by decide) (by decide) (by decide) (by decide) hhd hhb hld hlb
    · exact subst_clean_template templateWebsite templateWebsiteX templateTailB handle link
        (by decide) (by decide) (by decide) (by decide) hhd hhb hld hlb
    · exact subst_clean_template templateArticle templateArticleX templateTailB handle link
        (by decide) (by decide) (by decide) (by decide) hhd hhb hld hlb
  refine ⟨?_, ?_, hpair.1, hpair.2⟩
  · intro e he heq
    subst heq
    simp only [platformTemplates, List.mem_cons, List.not_mem_nil, or_false] at he
    rcases he with rfl | rfl | rfl | rfl | rfl <;> decide
  · intro hnone
    simp [templateFor, hnone]

/-- C6 (witness): a concrete benign instantiation of the amended
substitution theorem. -/
theorem claim6_witness :
    occursIn handlePlaceholder
        (generateVerificationMessage "twitter".data "alice".data "https://d.example".data none)
        = false ∧
    occursIn dashboardPlaceholder
        (generateVerificationMessage "twitter".data "alice".data "https://d.example".data none)
        = false :=
  ⟨(claim6_template_substitution "twitter".data "alice".data "https://d.example".data
      (by decide) (by decide) (by decide) (by decide)).2.2.1,
   (claim6_template_substitution "twitter".data "alice".data "https://d.example".data
      (by decide) (by decide) (by decide) (by decide)).2.2.2⟩

/-- Is `c` allowed in a URL scheme after its first character?  Modelled
from the WHATWG URL standard used by the runtime's `new URL`. -/
def isSchemeChar (c : Char) : Bool :=
  c.isAlphanum || c = '+' || c = '-' || c = '.'

/-- Split a string at its first colon.  Modelled from the scheme parsing
of the runtime's `new URL`. -/
def findColonSplit : Str → Option (Str × Str)
  | [] => none
  | c :: rest =>
      if c = ':' then some ([], rest)
      else (findColonSplit rest).map (fun p => (c :: p.1, p.2))

/-- Modelled from the runtime's `new URL(url)` (external primitive,
simplified): a string parses as a URL when it starts with a scheme — an
ASCII letter followed by scheme characters — terminated by a colon. -/
def isValidUrl (s : Str) : Bool :=
  match findColonSplit s with
  | none => false
  | some (scheme, _) =>
      match scheme with
      | [] => false
      | c :: cs => c.isAlpha && cs.all isSchemeChar

/-- The part of `s` before the first character in `stops`. -/
def takeUntil (stops : List Char) : Str → Str
  | [] => []
  | c :: rest => if c ∈ stops then [] else c :: takeUntil stops rest

/-- The part of `s` from the first character in `stops` on. -/
def dropUntil (stops : List Char) : Str → Str
  | [] => []
  | c :: rest => if c ∈ stops then c :: rest else dropUntil stops rest

/-- The suffix of an authority after its last at sign (user-info
removal). -/
def afterLastAt (s : Str) : Str :=
  (s.reverse.takeWhile (fun c => decide (¬(c = '@')))).reverse

/-- ASCII lowercasing of an embedded string. -/
def lowerStr (s : Str) : Str := s.map Char.toLower

/-- Modelled from the runtime's `new URL(url)` `.hostname` and
`.pathname` accessors (external primitive, simplified): hostname is the
authority after `//` up to a delimiter, without user-info or port and
lowercased; pathname is the remainder up to a query or fragment. -/
def urlHostPath (s : Str) : Str × Str :=
  match findColonSplit s with
  | none => ([], [])
  | some (_, rest) =>
      match rest with
      | '/' :: '/' :: r =>
          let auth := takeUntil ['/', '?', hashCh] r
          let tail := dropUntil ['/', '?', hashCh] r
          let host := takeUntil [':'] (afterLastAt auth)
          let path := takeUntil ['?', hashCh] tail
          (lowerStr host, if path.isEmpty then ['/'] else path)
      | _ => ([], takeUntil ['?', hashCh] rest)

/-- `SUPPORTED_PLATFORMS` from config.ts, in source order. -/
def SUPPORTED_PLATFORMS : List (Str × Str) :=
  [("twitter.com".data, "twitter".data),
   ("x.com".data, "twitter".data),
   ("instagram.com".data, "instagram".data),
   ("youtube.com".data, "youtube".data),
   ("youtu.be".data, "youtube".data)]

/-- `PostProcessor.detectPlatform` (post-processor.ts): first table entry
whose domain is contained in the lowercased hostname, defaulting to
`website`. -/
def detectPlatform (url : Str) : Str :=
  let hostname := lowerStr (urlHostPath url).1
  match SUPPORTED_PLATFORMS.find? (fun e => occursIn e.1 hostname) with
  | some e => e.2
  | none => "website".data

/-- JavaScript `s.split(sep)` for a single-character separator. -/
def splitSlash : Str → List Str
  | [] => [[]]
  | c :: rest =>
      let r := splitSlash rest
      if c = '/' then [] :: r
      else
        match r with
        | h :: t => (c :: h) :: t
        | [] => [[c]]

/-- `PostProcessor.extractTweetId` (post-processor.ts): the path segment
after the first literal `status` segment, `null` when absent, empty, or
when URL parsing throws. -/
def extractTweetId (url : Str) : Option Str :=
  if isValidUrl url then
    let pathParts := splitSlash (urlHostPath url).2
    match pathParts.findIdx? (fun p => decide (p = "status".data)) with
    | some statusIndex =>
        if statusIndex + 1 < pathParts.length then
          let tweetId := pathParts.getD (statusIndex + 1) []
          if tweetId.isEmpty then none else some tweetId
        else none
    | none => none
  else none

/-- The best-effort `{title, content, author, timestamp}` record produced
by the extraction strategies of post-processor.ts; capture time is a
natural-number clock value. -/
structure ExtractResult where
  title : Option Str
  content : Option Str
  author : Option Str
  timestamp : Option Nat
deriving DecidableEq

/-- The fields of a fetched-and-parsed page that the cheerio selectors of
post-processor.ts read: attribute reads are `string | undefined`, text
reads are strings (empty when the element is missing). -/
structure Page where
  ogTitle : Option Str
  ogDescription : Option Str
  metaDescription : Option Str
  metaAuthor : Option Str
  dataAuthor : Option Str
  pageTitle : Str
  h1Text : Str
  pText : Str
  authorClassText : Str
  titleClassText : Str
  channelNameText : Str
  channelTestIdText : Str
  descriptionText : Str
  captionText : Str
  postCaptionText : Str
  usernameText : Str

/-- `PostProcessor.extractTwitterContent` (post-processor.ts): no network
fetch; embed the parsed tweet identifier when present, else the generic
microblog placeholder (also reached via the internal catch). -/
def extractTwitterContent (url : Str) (now : Nat) : ExtractResult :=
  match extractTweetId url with
  | some tweetId =>
      { title := some "X/Twitter Post".data,
        content := some ("Post from X/Twitter (ID: ".data ++ tweetId ++ ")".data),
        author := none,
        timestamp := some now }
  | none =>
      { title := some "X/Twitter Post".data,
        content := some "Verified content from X/Twitter".data,
        author := none,
        timestamp := some now }

/-- The author computed by `PostProcessor.extractInstagramContent`: the
open-graph title up to `" on Instagram"`, else the username element
text. -/
def instagramAuthor (p : Page) : Option Str :=
  jsOr (p.ogTitle.map (fun s => splitFirst " on Instagram".data s)) (some p.usernameText)

/-- `PostProcessor.extractInstagramContent` (post-processor.ts): on a
successful fetch, caption-style content truncated to 1000, an untruncated
`Instagram Post by` title, and a truthy author; on fetch failure, the
fixed Instagram placeholder. -/
def extractInstagramContent (fetched : Except Unit Page) (now : Nat) : ExtractResult :=
  match fetched with
  | Except.error _ =>
      { title := some "Instagram Post".data,
        content := some "Content from Instagram".data,
        author := none,
        timestamp := some now }
  | Except.ok p =>
      let content := jsOr (jsOr p.ogDescription (some p.captionText)) (some p.postCaptionText)
      let author := instagramAuthor p
      { title := some ("Instagram Post by ".data ++ author.getD []),
        content := (truthyVal content).map (List.take 1000),
        author := truthyVal author,
        timestamp := some now }

/-- `PostProcessor.extractYouTubeContent` (post-processor.ts): on a
successful fetch, title truncated to 100 and description truncated to
1000; on fetch failure, the fixed YouTube placeholder. -/
def extractYouTubeContent (fetched : Except Unit Page) (now : Nat) : ExtractResult :=
  match fetched with
  | Except.error _ =>
      { title := some "YouTube Video".data,
        content := some "Content from YouTube".data,
        author := none,
        timestamp := some now }
  | Except.ok p =>
      let title := jsOr (jsOr p.ogTitle (some p.pageTitle)) (some p.titleClassText)
      let author := jsOr (jsOr p.metaAuthor (some p.channelNameText)) (some p.channelTestIdText)
      let description := jsOr p.ogDescription (some p.descriptionText)
      { title := (truthyVal title).map (List.take 100),
        content := (truthyVal description).map (List.take 1000),
        author := truthyVal author,
        timestamp := some now }

/-- `PostProcessor.extractWebsiteContent` (post-processor.ts): on a
successful fetch, title truncated to 100 and description truncated to
1000; on fetch failure, the fixed website placeholder. -/
def extractWebsiteContent (fetched : Except Unit Page) (now : Nat) : ExtractResult :=
  match fetched with
  | Except.error _ =>
      { title := some "Website Content".data,
        content := some "Content from website".data,
        author := none,
        timestamp := some now }
  | Except.ok p =>
      let title := jsOr (jsOr p.ogTitle (some p.pageTitle)) (some p.h1Text)
      let content := jsOr (jsOr p.ogDescription p.metaDescription) (some p.pText)
      let author := jsOr (jsOr p.metaAuthor (some p.authorClassText)) p.dataAuthor
      { title := (truthyVal title).map (List.take 100),
        content := (truthyVal content).map (List.take 1000),
        author := truthyVal author,
        timestamp := some now }

/-- `PostProcessor.extractContent` (post-processor.ts): dispatch on the
platform tag; the boolean records whether the chosen strategy performs a
network fetch.  The network is an explicit oracle from URL to fetch
outcome. -/
def extractContent (net : Str → Except Unit Page) (now : Nat)
    (url platform : Str) : ExtractResult × Bool :=
  if platform = "twitter".data then (extractTwitterContent url now, false)
  else if platform = "instagram".data then (extractInstagramContent (net url) now, true)
  else if platform = "youtube".data then (extractYouTubeContent (net url) now, true)
  else (extractWebsiteContent (net url) now, true)

/-- A truncated optional field is no longer than the truncation bound. -/
theorem length_of_map_take (n : Nat) (o : Option Str) (t : Str)
    (h : o.map (List.take n) = some t) : t.length ≤ n := by
  cases o with
  | none => simp at h
  | some s =>
      rw [Option.map_some'] at h
      have ht : t = s.take n := (Option.some.injEq _ _ ▸ h).symm
      rw [ht]
      simp [List.length_take]

/-- C5: when the page fetch or parse of the generic website strategy
fails, extraction does not propagate the failure: it returns the fixed
`Website Content` / `Content from website` placeholder record carrying
the current capture timestamp, both directly and through the platform
dispatch. -/
theorem claim5_website_fail_soft (now : Nat) (url : Str) :
    extractWebsiteContent (Except.error ()) now
      = { title := some "Website Content".data,
          content := some "Content from website".data,
          author := none, timestamp := some now } ∧
    (extractContent (fun _ => Except.error ()) now url "website".data).1
      = { title := some "Website Content".data,
          content := some "Content from website".data,
          author := none, timestamp := some now } :=
  ⟨rfl, rfl⟩

/-- C7: the microblog strategy consults no network oracle; a URL carrying
a parsed identifier yields a record embedding that identifier, any other
URL yields the generic microblog placeholder; on the example URLs the
identifier `42` is found and a status-free path is not. -/
theorem claim7_microblog (net net' : Str → Except Unit Page) (now : Nat) (url : Str) :
    extractContent net now url "twitter".data = extractContent net' now url "twitter".data ∧
    (extractContent net now url "twitter".data).2 = false ∧
    (∀ tweetId, extractTweetId url = some tweetId →
        extractTwitterContent url now
          = { title := some "X/Twitter Post".data,
              content := some ("Post from X/Twitter (ID: ".data ++ tweetId ++ ")".data),
              author := none, timestamp := some now }) ∧
    (extractTweetId url = none →
        extractTwitterContent url now
          = { title := some "X/Twitter Post".data,
              content := some "Verified content from X/Twitter".data,
              author := none, timestamp := some now }) ∧
    extractTweetId "https://x.example/user/status/42".data = some "42".data ∧
    extractTweetId "https://x.example/user/profile".data = none := by
  refine ⟨rfl, rfl, ?_, ?_, by decide, by decide⟩
  · intro tweetId h
    simp [extractTwitterContent, h]
  · intro h
    simp [extractTwitterContent, h]

/-- C7 (witness): the example URL of the claim, evaluated. -/
theorem claim7_witness :
    extractTwitterContent "https://x.example/user/status/42".data 0
      = { title := some "X/Twitter Post".data,
          content := some "Post from X/Twitter (ID: 42)".data,
          author := none, timestamp := some 0 } :=
  (claim7_microblog (fun _ => Except.error ()) (fun _ => Except.error ()) 0
    "https://x.example/user/status/42".data).2.2.1 "42".data (by decide)

/-- The page of the C8 counterexample: an open-graph title of one hundred
characters and nothing else. -/
def longAuthorPage : Page :=
  { ogTitle := some (List.replicate 100 'a'),
    ogDescription := none, metaDescription := none, metaAuthor := none,
    dataAuthor := none, pageTitle := [], h1Text := [], pText := [],
    authorClassText := [], titleClassText := [], channelNameText := [],
    channelTestIdText := [], descriptionText := [], captionText := [],
    postCaptionText := [], usernameText := [] }

/-- C8 (counterexample): the image-platform strategy does not truncate
its title — a one-hundred-character author yields a title of 118
characters, exceeding the claimed bound of 100. -/
theorem claim8_counterexample :
    (extractInstagramContent (Except.ok longAuthorPage) 0).title
      = some ("Instagram Post by ".data ++ List.replicate 100 'a') ∧
    100 < ("Instagram Post by ".data ++ List.replicate 100 'a').length := by
  constructor
  · decide
  · decide

/-- C8 (amended): the generic and video strategies truncate any present
title to 100 characters and any present content to 1000; the
image-platform strategy truncates its content to 1000 but its title is
the untruncated `Instagram Post by` line built from the page's author. -/
theorem claim8_truncation (fetched : Except Unit Page) (now : Nat) :
    (∀ t, (extractWebsiteContent fetched now).title = some t → t.length ≤ 100) ∧
    (∀ t, (extractWebsiteContent fetched now).content = some t → t.length ≤ 1000) ∧
    (∀ t, (extractYouTubeContent fetched now).title = some t → t.length ≤ 100) ∧
    (∀ t, (extractYouTubeContent fetched now).content = some t → t.length ≤ 1000) ∧
    (∀ t, (extractInstagramContent fetched now).content = some t → t.length ≤ 1000) ∧
    (∀ p, fetched = Except.ok p →
        (extractInstagramContent fetched now).title
          = some ("Instagram Post by ".data ++ (instagramAuthor p).getD [])) := by
  cases fetched with
  | error e =>
      refine ⟨?_, ?_, ?_, ?_, ?_, ?_⟩
      · intro t h
        simp only [extractWebsiteContent, Option.some.injEq] at h
        rw [← h]; decide
      · intro t h
        simp only [extractWebsiteContent, Option.some.injEq] at h
        rw [← h]; decide
      · intro t h
        simp only [extractYouTubeContent, Option.some.injEq] at h
        rw [← h]; decide
      · intro t h
        simp only [extractYouTubeContent, Option.some.injEq] at h
        rw [← h]; decide
      · intro t h
        simp only [extractInstagramContent, Option.some.injEq] at h
        rw [← h]; decide
      · intro p h
        exact absurd h (by simp)
  | ok p =>
      refine ⟨?_, ?_, ?_, ?_, ?_, ?_⟩
      · intro t h
        exact length_of_map_take 100 _ t h
      · intro t h
        exact length_of_map_take 1000 _ t h
      · intro t h
        exact length_of_map_take 100 _ t h
      · intro t h
        exact length_of_map_take 1000 _ t h
      · intro t h
        exact length_of_map_take 1000 _ t h
      · intro q h
        have hq : p = q := by
          have := Except.ok.injEq (ε := Unit) p q ▸ h
          exact this
        rw [← hq]
        rfl

/-- C8 (witness): the placeholder title of the generic strategy is within
the bound. -/
theorem claim8_witness : ("Website Content".data).length ≤ 100 :=
  (claim8_truncation (Except.error ()) 0).1 "Website Content".data rfl

/-- `PostData` from config.ts: the transient extraction output, all
fields optional. -/
structure PostData where
  url : Option Str
  platform : Option Str
  title : Option Str
  content : Option Str
  author : Option Str
  timestamp : Option Nat
  suremark_username : Option Str
deriving DecidableEq

/-- The errors thrown inside the command-action region embedded by
`process`: the invalid-URL error of `processUrl` and the
missing-required-data error of the command action. -/
inductive PErr
  | invalidUrl
  | missingData
deriving DecidableEq

/-- `PostProcessor.processUrl` (post-processor.ts): reject a string the
URL parser throws on, else classify and extract; the boolean reports
whether the chosen extraction strategy fetched from the network. -/
def processUrlT (net : Str → Except Unit Page) (now : Nat) (url : Str)
    (suremarkUsername : Option Str) : Except PErr PostData × Bool :=
  if isValidUrl url then
    let platform := detectPlatform url
    let extracted := extractContent net now url platform
    (Except.ok
      { url := some url, platform := some platform,
        title := extracted.1.title, content := extracted.1.content,
        author := extracted.1.author, timestamp := extracted.1.timestamp,
        suremark_username := suremarkUsername },
     extracted.2)
  else (Except.error PErr.invalidUrl, false)

/-- JavaScript falsiness of an optional string field of `PostData`. -/
def jsFalsy (v : Option Str) : Bool :=
  match v with
  | none => true
  | some s => s.isEmpty

/-- The `!postData.platform || !postData.url` guard of the tweet and
batch command actions. -/
def requiredMissing (pd : PostData) : Bool :=
  jsFalsy pd.platform || jsFalsy pd.url

/-- A document of the `processed_posts` Mongo collection as written by
`PostDatabase.saveProcessedPost` and `PostDatabase.saveSuccessfulPost`
(database.ts). -/
structure StoredDoc where
  url : Str
  platform : Str
  processedAt : Nat
  suremarkUsername : Option Str
  title : Option Str
  content : Option Str
  author : Option Str
  success : Bool
  tweetId : Option Str
  tweetUrl : Option Str
deriving DecidableEq

/-- The Mongo collection with its unique index on `url`
(`PostDatabase.initialize`): inserting a document whose `url` already
exists fails with a duplicate-key error (the boolean) and leaves the
collection unchanged. -/
def insertOne (docs : List StoredDoc) (d : StoredDoc) : List StoredDoc × Bool :=
  if docs.any (fun x => decide (x.url = d.url)) then (docs, true)
  else (docs ++ [d], false)

/-- `PostDatabase.saveProcessedPost` (database.ts): insert, swallowing a
duplicate-key error as a warning. -/
def saveProcessedPost (docs : List StoredDoc) (d : StoredDoc) : List StoredDoc :=
  (insertOne docs d).1

/-- `PostDatabase.saveSuccessfulPost` (database.ts): insert with
`success = true` and the tweet reference, swallowing a duplicate-key
error as a warning. -/
def saveSuccessfulPost (docs : List StoredDoc) (d : StoredDoc)
    (tweetId tweetUrl : Str) : List StoredDoc :=
  (insertOne docs
    { d with success := true, tweetId := some tweetId, tweetUrl := some tweetUrl }).1

/-- The Mongo `findOne({url, success: {$eq: true}})` existence check used
by `PostDatabase.isPostProcessed`. -/
def existsQuery (docs : List StoredDoc) (url : Str) : Bool :=
  docs.any (fun d => decide (d.url = url) && d.success)

/-- `PostDatabase.isPostProcessed` (database.ts), applied to the outcome
of the underlying store query: a query error is caught and reported as
`false`. -/
def isPostProcessed (queryOutcome : Except Unit Bool) : Bool :=
  match queryOutcome with
  | Except.ok b => b
  | Except.error _ => false

/-- `TweetResult` from config.ts: the posting client's response. -/
structure TweetResult where
  success : Bool
  tweet_id : Option Str
  tweet_url : Option Str
  error : Option Str
  retry_after : Option Nat
deriving DecidableEq

/-- The external collaborators and configuration of one orchestrator run:
the network fetch oracle, the posting client's response, whether the
store existence query throws, the clock, and the configured dashboard
link. -/
structure Env where
  net : Str → Except Unit Page
  client : TweetResult
  readFault : Bool
  now : Nat
  dashboardUrl : Str

/-- The store existence query of the tweet and batch actions, with its
fault injected from the environment. -/
def dedupQuery (env : Env) (docs : List StoredDoc) (url : Str) : Except Unit Bool :=
  if env.readFault then Except.error () else Except.ok (existsQuery docs url)

/-- The document built by the command actions before saving (`|| undefined`
on every optional field). -/
def mkProcessedDoc (pd : PostData) (now : Nat) (success : Bool) : StoredDoc :=
  { url := pd.url.getD [],
    platform := pd.platform.getD [],
    processedAt := now,
    suremarkUsername := truthyVal pd.suremark_username,
    title := truthyVal pd.title,
    content := truthyVal pd.content,
    author := truthyVal pd.author,
    success := success,
    tweetId := none,
    tweetUrl := none }

/-- The observable events of one orchestrator run: the store existence
query, a network fetch by an extraction strategy, the posting-client
call, and an attempted store insert. -/
inductive Ev
  | storeRead
  | fetchEv
  | postCall
  | storeWrite
deriving DecidableEq

/-- The terminal outcome of one orchestrator run (tweet command action,
database.ts command file). -/
inductive Outcome
  | alreadyProcessed
  | errored (e : PErr)
  | dryRunRecorded (message : Str)
  | posted (tweetId tweetUrl : Str)
  | postFailed (error : Option Str) (retryAfter : Option Nat)
deriving DecidableEq

/-- The post-credential region of the tweet command action (database.ts):
idempotency check, extraction, required-data guard, message composition,
then the dry-run or posting branch.  Returns the terminal outcome, the
store contents after the run, and the event trace in order. -/
def process (env : Env) (docs : List StoredDoc) (url : Str)
    (username customMessage : Option Str) (dryRun : Bool) :
    Outcome × List StoredDoc × List Ev :=
  if isPostProcessed (dedupQuery env docs url) then
    (Outcome.alreadyProcessed, docs, [Ev.storeRead])
  else
    match processUrlT env.net env.now url username with
    | (Except.error e, _) => (Outcome.errored e, docs, [Ev.storeRead])
    | (Except.ok pd, fetched) =>
        let evs := Ev.storeRead :: (if fetched then [Ev.fetchEv] else [])
        if requiredMissing pd then (Outcome.errored PErr.missingData, docs, evs)
        else
          let uname := (truthyVal pd.suremark_username).getD "suremark_user".data
          let msg := generateVerificationMessage (pd.platform.getD []) uname
            env.dashboardUrl customMessage
          if dryRun then
            let docs2 := saveProcessedPost docs (mkProcessedDoc pd env.now false)
            (Outcome.dryRunRecorded msg, docs2, evs ++ [Ev.storeWrite])
          else
            let r := env.client
            if r.success then
              let docs2 := saveSuccessfulPost docs (mkProcessedDoc pd env.now false)
                (r.tweet_id.getD []) (r.tweet_url.getD [])
              (Outcome.posted (r.tweet_id.getD []) (r.tweet_url.getD []), docs2,
               evs ++ [Ev.postCall, Ev.storeWrite])
            else
              (Outcome.postFailed r.error r.retry_after, docs, evs ++ [Ev.postCall])

/-- The Mongo existence check succeeds exactly when the store holds a
successful record at the URL. -/
theorem existsQuery_eq_true_iff (docs : List StoredDoc) (url : Str) :
    existsQuery docs url = true ↔ ∃ d ∈ docs, d.url = url ∧ d.success = true := by
  simp [existsQuery, List.any_eq_true, Bool.and_eq_true, decide_eq_true_eq]

/-- When no successful record exists, the query reports `false`. -/
theorem existsQuery_eq_false (docs : List StoredDoc) (url : Str)
    (hall : ∀ d ∈ docs, d.url = url → d.success = false) :
    existsQuery docs url = false := by
  rcases h : existsQuery docs url with _ | _
  · rfl
  · exfalso
    rcases (existsQuery_eq_true_iff docs url).mp h with ⟨d, hd, hud, hsd⟩
    have hf := hall d hd hud
    rw [hf] at hsd
    exact Bool.false_ne_true hsd

/-- Whenever the idempotency check does not fire, the run's outcome is
never `AlreadyProcessed`. -/
theorem process_not_already (env : Env) (docs : List StoredDoc) (url : Str)
    (username customMessage : Option Str) (dryRun : Bool)
    (hc : isPostProcessed (dedupQuery env docs url) = false) :
    (process env docs url username customMessage dryRun).1 ≠ Outcome.alreadyProcessed := by
  rcases hP : processUrlT env.net env.now url username with ⟨res, fetched⟩
  unfold process
  rw [hc]
  simp only [Bool.false_eq_true, if_false, hP]
  cases res with
  | error e => simp
  | ok pd =>
      simp only
      split_ifs <;> simp

/-- C1: a stored record at exactly the URL with `success = true` makes
the run short-circuit to `AlreadyProcessed` after only the store read —
no fetch, no posting call, no write; and when every record at the URL has
`success = false`, the short-circuit never fires. -/
theorem claim1_idempotency_short_circuit (env : Env) (docs : List StoredDoc)
    (url : Str) (username customMessage : Option Str) (dryRun : Bool)
    (hrf : env.readFault = false) :
    ((∃ d ∈ docs, d.url = url ∧ d.success = true) →
        process env docs url username customMessage dryRun
          = (Outcome.alreadyProcessed, docs, [Ev.storeRead])) ∧
    ((∀ d ∈ docs, d.url = url → d.success = false) →
        (process env docs url username customMessage dryRun).1
          ≠ Outcome.alreadyProcessed) := by
  constructor
  · intro hex
    have hq : existsQuery docs url = true := (existsQuery_eq_true_iff docs url).mpr hex
    simp [process, dedupQuery, hrf, isPostProcessed, hq]
  · intro hall
    have hq : existsQuery docs url = false := existsQuery_eq_false docs url hall
    have hc : isPostProcessed (dedupQuery env docs url) = false := by
      simp [dedupQuery, hrf, isPostProcessed, hq]
    exact process_not_already env docs url username customMessage dryRun hc

/-- Reduction of `process` past a passed idempotency check and a
successful extraction. -/
theorem process_eq_of_ok (env : Env) (docs : List StoredDoc) (url : Str)
    (username customMessage : Option Str) (dryRun : Bool)
    (pd : PostData) (fetched : Bool)
    (hc : isPostProcessed (dedupQuery env docs url) = false)
    (hP : processUrlT env.net env.now url username = (Except.ok pd, fetched))
    (hreq : requiredMissing pd = false) :
    process env docs url username customMessage dryRun
      = (if dryRun then
           (Outcome.dryRunRecorded
              (generateVerificationMessage (pd.platform.getD [])
                ((truthyVal pd.suremark_username).getD "suremark_user".data)
                env.dashboardUrl customMessage),
            saveProcessedPost docs (mkProcessedDoc pd env.now false),
            (Ev.storeRead :: (if fetched then [Ev.fetchEv] else [])) ++ [Ev.storeWrite])
         else if env.client.success then
           (Outcome.posted (env.client.tweet_id.getD []) (env.client.tweet_url.getD []),
            saveSuccessfulPost docs (mkProcessedDoc pd env.now false)
              (env.client.tweet_id.getD []) (env.client.tweet_url.getD []),
            (Ev.storeRead :: (if fetched then [Ev.fetchEv] else [])) ++ [Ev.postCall, Ev.storeWrite])
         else
           (Outcome.postFailed env.client.error env.client.retry_after, docs,
            (Ev.storeRead :: (if fetched then [Ev.fetchEv] else [])) ++ [Ev.postCall])) := by
  unfold process
  rw [hc, hP]
  simp only [Bool.false_eq_true, if_false, hreq]

/-- The platform tag computed by the classifier is never empty. -/
theorem detectPlatform_ne_nil (url : Str) : ¬(detectPlatform url = []) := by
  unfold detectPlatform
  rcases h : SUPPORTED_PLATFORMS.find?
      (fun e => occursIn e.1 (lowerStr (urlHostPath url).1)) with _ | e
  · simp only [h]
    decide
  · simp only [h]
    have hmem := List.mem_of_find?_eq_some h
    simp only [SUPPORTED_PLATFORMS, List.mem_cons, List.not_mem_nil, or_false] at hmem
    rcases hmem with rfl | rfl | rfl | rfl | rfl <;> decide

/-- A string that parses as a URL is nonempty. -/
theorem isValidUrl_ne_nil (url : Str) (hv : isValidUrl url = true) : ¬(url = []) := by
  intro h
  rw [h] at hv
  exact absurd hv (by decide)

/-- The result of `processUrl` on a valid URL. -/
theorem processUrlT_ok (net : Str → Except Unit Page) (now : Nat) (url : Str)
    (username : Option Str) (hv : isValidUrl url = true) :
    processUrlT net now url username
      = (Except.ok
          { url := some url, platform := some (detectPlatform url),
            title := (extractContent net now url (detectPlatform url)).1.title,
            content := (extractContent net now url (detectPlatform url)).1.content,
            author := (extractContent net now url (detectPlatform url)).1.author,
            timestamp := (extractContent net now url (detectPlatform url)).1.timestamp,
            suremark_username := username },
         (extractContent net now url (detectPlatform url)).2) := by
  simp [processUrlT, hv]

/-- The required-data guard never fires on a record with nonempty URL and
platform. -/
theorem requiredMissing_false (url platform : Str) (t c a : Option Str)
    (ts : Option Nat) (un : Option Str) (hu : ¬(url = [])) (hp : ¬(platform = [])) :
    requiredMissing
      { url := some url, platform := some platform, title := t, content := c,
        author := a, timestamp := ts, suremark_username := un } = false := by
  rcases url with _ | ⟨uc, urest⟩
  · exact absurd rfl hu
  rcases platform with _ | ⟨pc, prest⟩
  · exact absurd rfl hp
  rfl

/-- A document of the collection after an insert was already there or is
the inserted one. -/
theorem mem_insertOne (docs : List StoredDoc) (d x : StoredDoc)
    (hx : x ∈ (insertOne docs d).1) : x ∈ docs ∨ x = d := by
  unfold insertOne at hx
  rcases h : docs.any (fun y => decide (y.url = d.url)) with _ | _
  · rw [h] at hx
    simp only [Bool.false_eq_true, if_false] at hx
    rcases List.mem_append.mp hx with h1 | h1
    · exact Or.inl h1
    · exact Or.inr (List.mem_singleton.mp h1)
  · rw [h] at hx
    simp only [if_true] at hx
    exact Or.inl hx

/-- Inserting a document whose URL is already present leaves the
collection unchanged (duplicate-key rejection). -/
theorem insertOne_dup (docs : List StoredDoc) (d : StoredDoc)
    (hex : ∃ x ∈ docs, x.url = d.url) : (insertOne docs d).1 = docs := by
  rcases hex with ⟨x, hx, hxe⟩
  unfold insertOne
  have ha : docs.any (fun y => decide (y.url = d.url)) = true :=
    List.any_eq_true.mpr ⟨x, hx, decide_eq_true hxe⟩
  rw [ha]
  rfl

/-- After a dry-run save, a record at the document's URL with
`success = false` exists. -/
theorem saveProcessedPost_exists (docs : List StoredDoc) (d : StoredDoc)
    (hall : ∀ x ∈ docs, x.url = d.url → x.success = false)
    (hd : d.success = false) :
    ∃ x ∈ saveProcessedPost docs d, x.url = d.url ∧ x.success = false := by
  unfold saveProcessedPost insertOne
  rcases h : docs.any (fun y => decide (y.url = d.url)) with _ | _
  · refine ⟨d, ?_, rfl, hd⟩
    simp only [Bool.false_eq_true, if_false]
    exact List.mem_append.mpr (Or.inr (List.mem_singleton.mpr rfl))
  · rcases List.any_eq_true.mp h with ⟨x, hx, hxe⟩
    have hxu : x.url = d.url := of_decide_eq_true hxe
    exact ⟨x, by simp only [if_true]; exact hx, hxu, hall x hx hxu⟩

/-- A save of an unsuccessful document preserves "every record at this
URL is unsuccessful". -/
theorem save_preserves_all_false (docs : List StoredDoc) (d : StoredDoc) (url : Str)
    (hall : ∀ x ∈ docs, x.url = url → x.success = false)
    (hd : d.success = false) :
    ∀ x ∈ saveProcessedPost docs d, x.url = url → x.success = false := by
  intro x hx hxu
  rcases mem_insertOne docs d x hx with h | rfl
  · exact hall x h hxu
  · exact hd

/-- The posting-client call never appears in a dry-run trace. -/
theorem postCall_not_mem_dry (fetched : Bool) :
    Ev.postCall ∉ (Ev.storeRead :: (if fetched then [Ev.fetchEv] else []))
      ++ [Ev.storeWrite] := by
  cases fetched <;> decide

/-- The posting-client call always appears in a live trace. -/
theorem postCall_mem_live (fetched : Bool) :
    Ev.postCall ∈ (Ev.storeRead :: (if fetched then [Ev.fetchEv] else []))
      ++ [Ev.postCall, Ev.storeWrite] := by
  cases fetched <;> decide

/-- The posting-client call also appears in a failed live trace. -/
theorem postCall_mem_failed (fetched : Bool) :
    Ev.postCall ∈ (Ev.storeRead :: (if fetched then [Ev.fetchEv] else []))
      ++ [Ev.postCall] := by
  cases fetched <;> decide

/-- A network oracle whose every fetch fails. -/
def testNet : Str → Except Unit Page := fun _ => Except.error ()

/-- A posting-client response reporting success. -/
def okClient : TweetResult :=
  { success := true, tweet_id := some "123".data,
    tweet_url := some "https://twitter.com/user/status/123".data,
    error := none, retry_after := none }

/-- A posting-client response reporting a generic failure. -/
def failClient : TweetResult :=
  { success := false, tweet_id := none, tweet_url := none,
    error := some "X API error: boom".data, retry_after := none }

/-- The baseline test environment. -/
def baseEnv : Env :=
  { net := testNet, client := okClient, readFault := false, now := 0,
    dashboardUrl := "https://suremark.com/dashboard".data }

/-- The test environment whose posting client fails. -/
def envFail : Env := { baseEnv with client := failClient }

/-- The test environment whose store existence query throws. -/
def envFault : Env := { baseEnv with readFault := true }

/-- A well-formed test URL. -/
def urlA : Str := "https://a.example/x".data

/-- A malformed test input. -/
def badUrl : Str := "not a url".data

/-- A stored successful record at `urlA`. -/
def succDocA : StoredDoc :=
  { url := urlA, platform := "website".data, processedAt := 0,
    suremarkUsername := none, title := none, content := none, author := none,
    success := true, tweetId := none, tweetUrl := none }

/-- A stored unsuccessful (dry-run) record at `urlA`. -/
def dryDocA : StoredDoc :=
  { url := urlA, platform := "website".data, processedAt := 0,
    suremarkUsername := none, title := none, content := none, author := none,
    success := false, tweetId := none, tweetUrl := none }

/-- C1 (witness): the short-circuit fires on a stored success and not on
a stored dry-run record. -/
theorem claim1_witness :
    process baseEnv [succDocA] urlA none none false
      = (Outcome.alreadyProcessed, [succDocA], [Ev.storeRead]) ∧
    (process baseEnv [dryDocA] urlA none none false).1 ≠ Outcome.alreadyProcessed :=
  ⟨(claim1_idempotency_short_circuit baseEnv [succDocA] urlA none none false rfl).1
      (by decide),
   (claim1_idempotency_short_circuit baseEnv [dryDocA] urlA none none false rfl).2
      (by decide)⟩

/-- C3 (counterexample): on a malformed input the run still performs the
store existence query — the claim that no store access occurs before
validation is false of the code, where the idempotency check precedes
`processUrl`. -/
theorem claim3_counterexample :
    (process baseEnv [] badUrl none none false).1 = Outcome.errored PErr.invalidUrl ∧
    (process baseEnv [] badUrl none none false).2.2 = [Ev.storeRead] := by
  constructor
  · decide
  · decide

/-- C3 (amended): a malformed input is rejected with the invalid-URL
error and triggers no fetch, no posting call and no store write — but the
store existence query does run first, so the trace is exactly one store
read. -/
theorem claim3_invalid_url (env : Env) (docs : List StoredDoc) (url : Str)
    (username customMessage : Option Str) (dryRun : Bool)
    (hrf : env.readFault = false)
    (hinv : isValidUrl url = false)
    (hall : ∀ d ∈ docs, d.url = url → d.success = false) :
    process env docs url username customMessage dryRun
      = (Outcome.errored PErr.invalidUrl, docs, [Ev.storeRead]) := by
  have hq := existsQuery_eq_false docs url hall
  have hc : isPostProcessed (dedupQuery env docs url) = false := by
    simp [dedupQuery, hrf, isPostProcessed, hq]
  have hP : processUrlT env.net env.now url username
      = (Except.error PErr.invalidUrl, false) := by
    simp [processUrlT, hinv]
  unfold process
  rw [hc, hP]
  simp

/-- C3 (amended, witness): the malformed example input, evaluated. -/
theorem claim3_witness :
    process baseEnv [] badUrl none none false
      = (Outcome.errored PErr.invalidUrl, [], [Ev.storeRead]) :=
  claim3_invalid_url baseEnv [] badUrl none none false rfl (by decide) (by decide)

/-- C2: in a live run past the idempotency check, a posting-client
failure (including the rate-limit sub-case carried in `error` and
`retry_after`) surfaces as `PostFailed`, writes nothing, and leaves later
runs unblocked; any document that appears in the store during the run has
`success = true` and presupposes a client success, and on success the
trace ends with the posting call immediately followed by the store
write. -/
theorem claim2_success_only_after_post (env : Env) (docs : List StoredDoc) (url : Str)
    (username customMessage : Option Str)
    (hrf : env.readFault = false)
    (hv : isValidUrl url = true)
    (hall : ∀ d ∈ docs, d.url = url → d.success = false) :
    (env.client.success = false →
        (process env docs url username customMessage false).1
            = Outcome.postFailed env.client.error env.client.retry_after ∧
        (process env docs url username customMessage false).2.1 = docs ∧
        ∀ customMessage2 dryRun2,
          (process env (process env docs url username customMessage false).2.1 url
              username customMessage2 dryRun2).1 ≠ Outcome.alreadyProcessed) ∧
    (∀ d, d ∈ (process env docs url username customMessage false).2.1 → d ∉ docs →
        d.success = true ∧ env.client.success = true) ∧
    (env.client.success = true →
        ∃ pre, (process env docs url username customMessage false).2.2
            = pre ++ [Ev.postCall, Ev.storeWrite]) := by
  have hq := existsQuery_eq_false docs url hall
  have hc : isPostProcessed (dedupQuery env docs url) = false := by
    simp [dedupQuery, hrf, isPostProcessed, hq]
  have hP := processUrlT_ok env.net env.now url username hv
  have hreq := requiredMissing_false url (detectPlatform url)
    (extractContent env.net env.now url (detectPlatform url)).1.title
    (extractContent env.net env.now url (detectPlatform url)).1.content
    (extractContent env.net env.now url (detectPlatform url)).1.author
    (extractContent env.net env.now url (detectPlatform url)).1.timestamp
    username (isValidUrl_ne_nil url hv) (detectPlatform_ne_nil url)
  have hproc := process_eq_of_ok env docs url username customMessage false _ _ hc hP hreq
  rcases hcs : env.client.success with _ | _
  · -- client failure
    rw [hcs] at hproc
    simp only [Bool.false_eq_true, if_false] at hproc
    refine ⟨fun _ => ?_, fun d hd hnd => ?_, fun htrue => absurd htrue (by decide)⟩
    · rw [hproc]
      refine ⟨rfl, rfl, fun customMessage2 dryRun2 => ?_⟩
      exact process_not_already env docs url username customMessage2 dryRun2 hc
    · rw [hproc] at hd
      exact absurd hd hnd
  · -- client success
    rw [hcs] at hproc
    simp only [if_true] at hproc
    refine ⟨fun hfalse => absurd hfalse (by decide), fun d hd hnd => ?_, fun _ => ?_⟩
    · rw [hproc] at hd
      rcases mem_insertOne _ _ d hd with h | rfl
      · exact absurd h hnd
      · exact ⟨rfl, rfl⟩
    · rw [hproc]
      exact ⟨Ev.storeRead ::
        (if (extractContent env.net env.now url (detectPlatform url)).2
          then [Ev.fetchEv] else []), rfl⟩

/-- C2 (witness): a failing client on an empty store, evaluated. -/
theorem claim2_witness :
    (process envFail [] urlA none none false).1
        = Outcome.postFailed failClient.error failClient.retry_after ∧
    (process envFail [] urlA none none false).2.1 = [] :=
  have h := (claim2_success_only_after_post envFail [] urlA none none rfl
    (by decide) (by decide)).1 rfl
  ⟨h.1, h.2.1⟩

/-- C4: a dry run past the idempotency check records a `success = false`
document without any posting-client call and reports the dry-run outcome;
an immediate second dry run is not blocked, surfaces no duplicate-key
error, reports the dry-run outcome again and leaves the store
unchanged. -/
theorem claim4_dry_run (env : Env) (docs : List StoredDoc) (url : Str)
    (username customMessage : Option Str)
    (hrf : env.readFault = false)
    (hv : isValidUrl url = true)
    (hall : ∀ d ∈ docs, d.url = url → d.success = false) :
    (∃ m, (process env docs url username customMessage true).1
        = Outcome.dryRunRecorded m) ∧
    Ev.postCall ∉ (process env docs url username customMessage true).2.2 ∧
    (∃ d ∈ (process env docs url username customMessage true).2.1,
        d.url = url ∧ d.success = false) ∧
    (∃ m, (process env (process env docs url username customMessage true).2.1 url
        username customMessage true).1 = Outcome.dryRunRecorded m) ∧
    (process env (process env docs url username customMessage true).2.1 url
        username customMessage true).2.1
      = (process env docs url username customMessage true).2.1 ∧
    Ev.postCall ∉ (process env (process env docs url username customMessage true).2.1
        url username customMessage true).2.2 := by
  have hq := existsQuery_eq_false docs url hall
  have hc : isPostProcessed (dedupQuery env docs url) = false := by
    simp [dedupQuery, hrf, isPostProcessed, hq]
  have hP := processUrlT_ok env.net env.now url username hv
  have hreq := requiredMissing_false url (detectPlatform url)
    (extractContent env.net env.now url (detectPlatform url)).1.title
    (extractContent env.net env.now url (detectPlatform url)).1.content
    (extractContent env.net env.now url (detectPlatform url)).1.author
    (extractContent env.net env.now url (detectPlatform url)).1.timestamp
    username (isValidUrl_ne_nil url hv) (detectPlatform_ne_nil url)
  have hproc := process_eq_of_ok env docs url username customMessage true _ _ hc hP hreq
  simp only [if_true] at hproc
  have d1eq : (process env docs url username customMessage true).2.1
      = saveProcessedPost docs
          (mkProcessedDoc
            { url := some url, platform := some (detectPlatform url),
              title := (extractContent env.net env.now url (detectPlatform url)).1.title,
              content := (extractContent env.net env.now url (detectPlatform url)).1.content,
              author := (extractContent env.net env.now url (detectPlatform url)).1.author,
              timestamp := (extractContent env.net env.now url (detectPlatform url)).1.timestamp,
              suremark_username := username } env.now false) := by
    rw [hproc]
  have hrec : ∃ d ∈ (process env docs url username customMessage true).2.1,
      d.url = url ∧ d.success = false := by
    rw [d1eq]
    exact saveProcessedPost_exists docs _ hall rfl
  have hall2 : ∀ x ∈ (process env docs url username customMessage true).2.1,
      x.url = url → x.success = false := by
    rw [d1eq]
    exact save_preserves_all_false docs _ url hall rfl
  have hq2 := existsQuery_eq_false _ url hall2
  have hc2 : isPostProcessed
      (dedupQuery env (process env docs url username customMessage true).2.1 url)
        = false := by
    simp [dedupQuery, hrf, isPostProcessed, hq2]
  have hproc2 := process_eq_of_ok env
    (process env docs url username customMessage true).2.1 url username customMessage
    true _ _ hc2 hP hreq
  simp only [if_true] at hproc2
  refine ⟨⟨_, by rw [hproc]⟩, ?_, hrec, ⟨_, by rw [hproc2]⟩, ?_, ?_⟩
  · rw [hproc]
    exact postCall_not_mem_dry _
  · rw [hproc2]
    rcases hrec with ⟨x, hx, hxu, _⟩
    exact insertOne_dup _ _ ⟨x, hx, hxu⟩
  · rw [hproc2]
    exact postCall_not_mem_dry _

/-- C4 (witness): a dry run on the empty store, evaluated through the
theorem. -/
theorem claim4_witness :
    (∃ m, (process baseEnv [] urlA none none true).1 = Outcome.dryRunRecorded m) ∧
    (∃ d ∈ (process baseEnv [] urlA none none true).2.1,
        d.url = urlA ∧ d.success = false) :=
  have h := claim4_dry_run baseEnv [] urlA none none rfl (by decide) (by decide)
  ⟨h.1, h.2.2.1⟩

/-- C10: a throwing store existence query is caught and reported as
`false`, so even over a store holding a successful record the run
proceeds to extraction and posting: with a succeeding client the outcome
is `Posted` and the trace contains the posting call. -/
theorem claim10_fail_open (env : Env) (docs : List StoredDoc) (url : Str)
    (username customMessage : Option Str)
    (hrf : env.readFault = true)
    (hv : isValidUrl url = true)
    (hcs : env.client.success = true)
    (hex : ∃ d ∈ docs, d.url = url ∧ d.success = true) :
    isPostProcessed (Except.error ()) = false ∧
    isPostProcessed (dedupQuery env docs url) = false ∧
    (process env docs url username customMessage false).1
      = Outcome.posted (env.client.tweet_id.getD []) (env.client.tweet_url.getD []) ∧
    Ev.postCall ∈ (process env docs url username customMessage false).2.2 := by
  have hc : isPostProcessed (dedupQuery env docs url) = false := by
    simp [dedupQuery, hrf, isPostProcessed]
  have hP := processUrlT_ok env.net env.now url username hv
  have hreq := requiredMissing_false url (detectPlatform url)
    (extractContent env.net env.now url (detectPlatform url)).1.title
    (extractContent env.net env.now url (detectPlatform url)).1.content
    (extractContent env.net env.now url (detectPlatform url)).1.author
    (extractContent env.net env.now url (detectPlatform url)).1.timestamp
    username (isValidUrl_ne_nil url hv) (detectPlatform_ne_nil url)
  have hproc := process_eq_of_ok env docs url username customMessage false _ _ hc hP hreq
  rw [hcs] at hproc
  simp only [Bool.false_eq_true, if_false, if_true] at hproc
  refine ⟨rfl, hc, ?_, ?_⟩
  · rw [hproc]
  · rw [hproc]
    exact postCall_mem_live _

/-- C10 (witness): a read fault over a store already holding a success
record, evaluated through the theorem. -/
theorem claim10_witness :
    (process envFault [succDocA] urlA none none false).1
      = Outcome.posted ("123".data) ("https://twitter.com/user/status/123".data) :=
  (claim10_fail_open envFault [succDocA] urlA none none rfl (by decide) rfl
    (by decide)).2.2.1

/-- The running state of the batch command action: the store plus the
`processed`, `skipped` and `failed` counters. -/
structure BatchState where
  docs : List StoredDoc
  processed : Nat
  skipped : Nat
  failed : Nat
deriving DecidableEq

/-- The loop body of the batch command action (database.ts command file):
skip on the idempotency check, count a failure on a thrown error, a
missing-data guard or a client failure, and count a processed item on a
dry-run save or a successful post. -/
def batchStep (env : Env) (username : Option Str) (dryRun : Bool)
    (st : BatchState) (url : Str) : BatchState :=
  if isPostProcessed (dedupQuery env st.docs url) then
    { st with skipped := st.skipped + 1 }
  else
    match processUrlT env.net env.now url username with
    | (Except.error _, _) => { st with failed := st.failed + 1 }
    | (Except.ok pd, _) =>
        if requiredMissing pd then { st with failed := st.failed + 1 }
        else
          if dryRun then
            { st with
                docs := saveProcessedPost st.docs (mkProcessedDoc pd env.now false),
                processed := st.processed + 1 }
          else
            let r := env.client
            if r.success then
              { st with
                  docs := saveSuccessfulPost st.docs (mkProcessedDoc pd env.now false)
                    (r.tweet_id.getD []) (r.tweet_url.getD []),
                  processed := st.processed + 1 }
            else { st with failed := st.failed + 1 }

/-- The batch command action: fold the loop body over the URL list in
input order, starting from zeroed counters. -/
def runBatch (env : Env) (username : Option Str) (dryRun : Bool)
    (docs0 : List StoredDoc) (urls : List Str) : BatchState :=
  urls.foldl (batchStep env username dryRun)
    { docs := docs0, processed := 0, skipped := 0, failed := 0 }

/-- Every iteration of the batch loop increments exactly one counter. -/
theorem batchStep_total (env : Env) (username : Option Str) (dryRun : Bool)
    (st : BatchState) (url : Str) :
    (batchStep env username dryRun st url).processed
      + (batchStep env username dryRun st url).skipped
      + (batchStep env username dryRun st url).failed
      = st.processed + st.skipped + st.failed + 1 := by
  unfold batchStep
  rcases hP : processUrlT env.net env.now url username with ⟨res, fetched⟩
  split_ifs
  · simp <;> omega
  · cases res with
    | error e => simp <;> omega
    | ok pd =>
        simp only
        split_ifs <;> simp <;> omega
  · cases res with
    | error e => simp <;> omega
    | ok pd =>
        simp only
        split_ifs <;> simp <;> omega

/-- Folding the batch loop adds the list length to the counter total. -/
theorem foldl_batch_total (env : Env) (username : Option Str) (dryRun : Bool) :
    ∀ (urls : List Str) (st : BatchState),
      (urls.foldl (batchStep env username dryRun) st).processed
        + (urls.foldl (batchStep env username dryRun) st).skipped
        + (urls.foldl (batchStep env username dryRun) st).failed
        = st.processed + st.skipped + st.failed + urls.length := by
  intro urls
  induction urls with
  | nil => intro st; simp
  | cons u rest ih =>
      intro st
      have h1 := batchStep_total env username dryRun st u
      simp only [List.foldl_cons, List.length_cons]
      rw [ih (batchStep env username dryRun st u), h1]
      omega

/-- A second well-formed test URL. -/
def urlC : Str := "https://b.example/y".data

/-- C9: the batch driver folds over the URLs in order, counting every URL
exactly once — as skipped when the successful-only idempotency check
fires, as failed on a malformed URL, as processed on a dry-run or posted
outcome — and on the list `[valid, malformed, valid]` over an empty store
it reports two processed, zero skipped, one failed, with both valid URLs
persisted. -/
theorem claim9_batch (env : Env) (username : Option Str) (dryRun : Bool)
    (st : BatchState) (url : Str) (docs0 : List StoredDoc) (urls : List Str) :
    ((runBatch env username dryRun docs0 urls).processed
        + (runBatch env username dryRun docs0 urls).skipped
        + (runBatch env username dryRun docs0 urls).failed = urls.length) ∧
    (isPostProcessed (dedupQuery env st.docs url) = true →
        batchStep env username dryRun st url = { st with skipped := st.skipped + 1 }) ∧
    (isPostProcessed (dedupQuery env st.docs url) = false → isValidUrl url = false →
        batchStep env username dryRun st url = { st with failed := st.failed + 1 }) ∧
    (isPostProcessed (dedupQuery env st.docs url) = false → isValidUrl url = true →
        dryRun = true →
        (batchStep env username dryRun st url).processed = st.processed + 1) ∧
    (isPostProcessed (dedupQuery env st.docs url) = false → isValidUrl url = true →
        dryRun = false → env.client.success = true →
        (batchStep env username dryRun st url).processed = st.processed + 1) ∧
    (isPostProcessed (dedupQuery env st.docs url) = false → isValidUrl url = true →
        dryRun = false → env.client.success = false →
        (batchStep env username dryRun st url).failed = st.failed + 1) ∧
    (runBatch baseEnv none true [] [urlA, badUrl, urlC]).processed = 2 ∧
    (runBatch baseEnv none true [] [urlA, badUrl, urlC]).skipped = 0 ∧
    (runBatch baseEnv none true [] [urlA, badUrl, urlC]).failed = 1 ∧
    (∃ d ∈ (runBatch baseEnv none true [] [urlA, badUrl, urlC]).docs,
        d.url = urlA ∧ d.success = false) ∧
    (∃ d ∈ (runBatch baseEnv none true [] [urlA, badUrl, urlC]).docs,
        d.url = urlC ∧ d.success = false) := by
  have hstep : ∀ (h1 : isPostProcessed (dedupQuery env st.docs url) = false)
      (h2 : isValidUrl url = true),
      batchStep env username dryRun st url
        = (if dryRun then
             { st with
                 docs := saveProcessedPost st.docs
                   (mkProcessedDoc
                     { url := some url, platform := some (detectPlatform url),
                       title := (extractContent env.net env.now url
                         (detectPlatform url)).1.title,
                       content := (extractContent env.net env.now url
                         (detectPlatform url)).1.content,
                       author := (extractContent env.net env.now url
                         (detectPlatform url)).1.author,
                       timestamp := (extractContent env.net env.now url
                         (detectPlatform url)).1.timestamp,
                       suremark_username := username } env.now false),
                 processed := st.processed + 1 }
           else if env.client.success then
             { st with
                 docs := saveSuccessfulPost st.docs
                   (mkProcessedDoc
                     { url := some url, platform := some (detectPlatform url),
                       title := (extractContent env.net env.now url
                         (detectPlatform url)).1.title,
                       content := (extractContent env.net env.now url
                         (detectPlatform url)).1.content,
                       author := (extractContent env.net env.now url
                         (detectPlatform url)).1.author,
                       timestamp := (extractContent env.net env.now url
                         (detectPlatform url)).1.timestamp,
                       suremark_username := username } env.now false)
                   (env.client.tweet_id.getD []) (env.client.tweet_url.getD []),
                 processed := st.processed + 1 }
           else { st with failed := st.failed + 1 }) := by
    intro h1 h2
    have hP := processUrlT_ok env.net env.now url username h2
    have hreq := requiredMissing_false url (detectPlatform url)
      (extractContent env.net env.now url (detectPlatform url)).1.title
      (extractContent env.net env.now url (detectPlatform url)).1.content
      (extractContent env.net env.now url (detectPlatform url)).1.author
      (extractContent env.net env.now url (detectPlatform url)).1.timestamp
      username (isValidUrl_ne_nil url h2) (detectPlatform_ne_nil url)
    unfold batchStep
    rw [h1, hP]
    simp only [Bool.false_eq_true, if_false, hreq]
  refine ⟨?_, ?_, ?_, ?_, ?_, ?_, by decide, by decide, by decide, by decide, by decide⟩
  · have h := foldl_batch_total env username dryRun urls
      { docs := docs0, processed := 0, skipped := 0, failed := 0 }
    simpa [runBatch] using h
  · intro h
    simp [batchStep, h]
  · intro h1 h2
    simp [batchStep, h1, processUrlT, h2]
  · intro h1 h2 h3
    rw [hstep h1 h2, h3]
    simp
  · intro h1 h2 h3 h4
    rw [hstep h1 h2, h3, h4]
    simp
  · intro h1 h2 h3 h4
    rw [hstep h1 h2, h3, h4]
    simp

/-- C9 (witness): a URL with a stored success record is skipped by the
batch loop without touching the counters of the other outcomes. -/
theorem claim9_witness :
    batchStep baseEnv none true
        { docs := [succDocA], processed := 0, skipped := 0, failed := 0 } urlA
      = { docs := [succDocA], processed := 0, skipped := 1, failed := 0 } :=
  (claim9_batch baseEnv none true
    { docs := [succDocA], processed := 0, skipped := 0, failed := 0 }
    urlA [] []).2.1 (by decide)
